import Mathlib

set_option maxHeartbeats 1000000

/-!
Shallow embedding of `aden_tools/tools/parquet_tool/parquet_tool.py`:
the identifier validator, the `_build_query` clause assembler, and the
`parquet_read` / `parquet_write` / `parquet_info` wrappers.

Python values appearing as filter values / parameters are modelled by the
inductive `Value`; Python dicts for filters, aggregates and order entries are
modelled as structures whose fields are the results of the `.get` calls the
code performs (`Option` encodes a possibly missing / `None` entry).  Machine
integers are modelled as `Int` (Python ints are unbounded, so no wrap-around
is needed).  The external collaborators (the `duckdb` engine, the
`get_secure_path` path resolver from `file_system_toolkits.security`, and the
filesystem) are abstracted into an `Env` record, and every externally visible
action of the wrappers is recorded in an `Effect` trace so that
"before any I/O" claims can be stated.
-/

/-- A Python runtime value as it can appear in filter values and in the
positional parameter list.  `Value.none` models Python `None` (also the
result of `dict.get` on a missing key); `Value.list` models a Python list
(`isinstance(value, list)` is a constructor test). -/
inductive Value where
  | none : Value
  | int : Int → Value
  | str : String → Value
  | list : List Value → Value
deriving Repr

/-- A filter dict: the fields are `condition.get("column")`,
`condition.get("op")` and `condition.get("value")` (missing `value` is
`Value.none`, matching Python where `.get` yields `None`). -/
structure FilterSpec where
  column : Option String
  op : Option String
  value : Value
deriving Repr

/-- An aggregate dict: `agg.get("column")`, `agg.get("op")`, `agg.get("alias")`. -/
structure AggregateSpec where
  column : Option String
  op : Option String
  aliasName : Option String
deriving Repr

/-- An order-by dict: `entry.get("column")`, `entry.get("direction")`. -/
structure OrderSpec where
  column : Option String
  direction : Option String
deriving Repr

/-- Python `str(x)` for an optional string: `str(None) = "None"`. -/
def pyStr : Option String → String
  | Option.none => "None"
  | Option.some s => s

/-- Python falsiness of an optional string (`not column`):
`None` and the empty string are falsy. -/
def pyFalsy : Option String → Bool
  | Option.none => true
  | Option.some s => s == ""

/-- Python `str.lower()` restricted to ASCII (the code only compares the
result against ASCII whitelist entries). -/
def pyLower (s : String) : String := String.mk (s.data.map Char.toLower)

/-- Python `str.upper()` restricted to ASCII. -/
def pyUpper (s : String) : String := String.mk (s.data.map Char.toUpper)

/-- Python `sep.join(parts)`. -/
def pyJoin (sep : String) : List String → String
  | [] => ""
  | [x] => x
  | x :: xs => x ++ sep ++ pyJoin sep xs

/-- Python `s.endswith(suffix)`. -/
def pyEndsWith (s suffix : String) : Bool := suffix.data.isSuffixOf s.data

/-- `ALLOWED_OPERATORS = {"=", "!=", ">", "<", ">=", "<=", "in", "like"}`. -/
def ALLOWED_OPERATORS : List String := ["=", "!=", ">", "<", ">=", "<=", "in", "like"]

/-- `ALLOWED_AGGREGATES = {"count", "sum", "avg", "min", "max"}`. -/
def ALLOWED_AGGREGATES : List String := ["count", "sum", "avg", "min", "max"]

/-- `ALLOWED_ORDER = {"asc", "desc"}`. -/
def ALLOWED_ORDER : List String := ["asc", "desc"]

/-- First character class of `IDENTIFIER_RE = ^[A-Za-z_][A-Za-z0-9_]*$`. -/
def isIdentStartChar (c : Char) : Bool := c.isAlpha || c == '_'

/-- Repeated character class `[A-Za-z0-9_]` of `IDENTIFIER_RE`. -/
def isIdentChar (c : Char) : Bool := c.isAlphanum || c == '_'

/-- Matching of the tail `[A-Za-z0-9_]*$` of `IDENTIFIER_RE` against the rest
of the string, under Python `re` semantics where `$` matches at the end of the
string or just before a single newline that ends the string. -/
def identTail : List Char → Bool
  | [] => true
  | c :: rest => (isIdentChar c && identTail rest) || (c == '\n' && rest.isEmpty)

/-- `_validate_identifier(name) = bool(IDENTIFIER_RE.match(name))` where
`IDENTIFIER_RE = re.compile(r"^[A-Za-z_][A-Za-z0-9_]*$")`.  Note that Python
`re.match` with a `$` anchor also succeeds when the string ends with a single
trailing newline after the matched material. -/
def validate_identifier (name : String) : Bool :=
  match name.data with
  | [] => false
  | c :: rest => isIdentStartChar c && identTail rest

/-- `_error_invalid_identifier(name)` produces `{"error": f"Invalid column name: {name}"}`;
errors are modelled by their message string. -/
def error_invalid_identifier (name : String) : String :=
  "Invalid column name: " ++ name

/-- The validation loops over `selected_columns` and `group_by`
(lines 48-56): return the first invalid-identifier error, else succeed. -/
def checkIdentList : List String → Except String Unit
  | [] => Except.ok ()
  | c :: cs =>
    if validate_identifier c then checkIdentList cs
    else Except.error (error_invalid_identifier c)

/-- The aggregate loop (lines 62-75): validate each aggregate and render its
`func(column)` / `func(column) AS alias` expression. -/
def buildAggExprs : List AggregateSpec → Except String (List String)
  | [] => Except.ok []
  | agg :: rest =>
    let column := agg.column
    let func := pyLower (pyStr (Option.some (agg.op.getD "")))
    let aliasName := agg.aliasName
    if pyFalsy column || !(validate_identifier (pyStr column)) then
      Except.error (error_invalid_identifier (pyStr column))
    else if !(ALLOWED_AGGREGATES.contains func) then
      Except.error ("Unsupported aggregate: " ++ func)
    else
      let expr := func ++ "(" ++ pyStr column ++ ")"
      if pyFalsy aliasName then
        (buildAggExprs rest).map (fun es => expr :: es)
      else if !(validate_identifier (pyStr aliasName)) then
        Except.error (error_invalid_identifier (pyStr aliasName))
      else
        (buildAggExprs rest).map (fun es => (expr ++ " AS " ++ pyStr aliasName) :: es)

/-- `", ".join(["?"] * n)` (line 96). -/
def placeholderList (n : Nat) : String := pyJoin ", " (List.replicate n "?")

/-- The filter loop (lines 84-101): produce the `WHERE` fragments and the
parameter list contributed by the filters, in input order. -/
def buildWhere : List FilterSpec → Except String (List String × List Value)
  | [] => Except.ok ([], [])
  | condition :: rest =>
    let column := condition.column
    let op := pyLower (pyStr (Option.some (condition.op.getD "")))
    let value := condition.value
    if pyFalsy column || !(validate_identifier (pyStr column)) then
      Except.error (error_invalid_identifier (pyStr column))
    else if !(ALLOWED_OPERATORS.contains op) then
      Except.error ("Unsupported operator: " ++ op)
    else if op == "in" then
      match value with
      | Value.list [] => Except.error "IN operator requires a non-empty list value"
      | Value.list (v :: vs) =>
        (buildWhere rest).map
          (fun wp =>
            ((pyStr column ++ " IN (" ++ placeholderList (v :: vs).length ++ ")") :: wp.1,
              (v :: vs) ++ wp.2))
      | _ => Except.error "IN operator requires a non-empty list value"
    else
      (buildWhere rest).map
        (fun wp => ((pyStr column ++ " " ++ op ++ " ?") :: wp.1, value :: wp.2))

/-- The order-by loop (lines 104-112): validate each entry and render
`column DIRECTION` with the direction upper-cased. -/
def buildOrder : List OrderSpec → Except String (List String)
  | [] => Except.ok []
  | entry :: rest =>
    let column := entry.column
    let direction := pyLower (entry.direction.getD "asc")
    if pyFalsy column || !(validate_identifier (pyStr column)) then
      Except.error (error_invalid_identifier (pyStr column))
    else if !(ALLOWED_ORDER.contains direction) then
      Except.error ("Unsupported order direction: " ++ direction)
    else
      (buildOrder rest).map (fun os => (pyStr column ++ " " ++ pyUpper direction) :: os)

/-- The `select_parts` construction (lines 58-81): group-by columns followed
by the aggregate expressions when grouping, else the selected columns, else
the wildcard. -/
def buildSelectParts (selected_columns group_by : List String)
    (aggregates : List AggregateSpec) : Except String (List String) :=
  if group_by ≠ [] then
    if !aggregates.isEmpty then
      (buildAggExprs aggregates).map (fun es => group_by ++ es)
    else
      pure group_by
  else if selected_columns ≠ [] then
    pure selected_columns
  else
    pure ["*"]

/-- `_build_query` up to and including the `ORDER BY` clause (lines 46-121):
everything except the trailing `LIMIT` / `OFFSET` handling. -/
def buildQueryCore (table_expr : String) (selected_columns : List String)
    (filters : List FilterSpec) (group_by : List String) (order_by : List OrderSpec)
    (aggregates : List AggregateSpec) : Except String (String × List Value) := do
  checkIdentList selected_columns
  checkIdentList group_by
  let select_parts ← buildSelectParts selected_columns group_by aggregates
  let wp ← buildWhere filters
  let order_parts ← buildOrder order_by
  let query := "SELECT " ++ pyJoin ", " select_parts ++ " FROM " ++ table_expr
  let query := if wp.1 ≠ [] then query ++ " WHERE " ++ pyJoin " AND " wp.1 else query
  let query := if group_by ≠ [] then query ++ " GROUP BY " ++ pyJoin ", " group_by else query
  let query := if order_parts ≠ [] then query ++ " ORDER BY " ++ pyJoin ", " order_parts else query
  pure (query, wp.2)

/-- The result of a successful `_build_query`: the statement text and the
positional parameter list. -/
structure BuiltQuery where
  query : String
  params : List Value
deriving Repr

/-- `_build_query` (lines 36-129).  The Python function returns either
`(query, params)` or `(None, {"error": ...})`; the two cases are modelled by
`Except.ok` / `Except.error` on the error message. -/
def build_query (table_expr : String) (selected_columns : List String)
    (filters : List FilterSpec) (group_by : List String) (order_by : List OrderSpec)
    (limit : Option Int) (offset : Int) (aggregates : List AggregateSpec) :
    Except String BuiltQuery := do
  let core ← buildQueryCore table_expr selected_columns filters group_by order_by aggregates
  let query := if limit.isSome then core.1 ++ " LIMIT ?" else core.1
  let params := match limit with
    | Option.some l => core.2 ++ [Value.int l]
    | Option.none => core.2
  let query := if offset ≠ 0 then query ++ " OFFSET ?" else query
  let params := if offset ≠ 0 then params ++ [Value.int offset] else params
  pure ⟨query, params⟩

/-- An externally visible action performed by one of the tool operations:
path resolution via `get_secure_path`, an `os.path.exists` check,
`os.makedirs`, a `conn.execute` engine invocation, or `os.path.getsize`. -/
inductive Effect where
  | resolvePath (path : String)
  | checkExists (path : String)
  | makeDirs (path : String)
  | engineExec (query : String) (params : List Value)
  | statFileSize (path : String)
deriving Repr

/-- Whether an effect is an invocation of the query engine. -/
def Effect.isEngineCall : Effect → Bool
  | Effect.engineExec _ _ => true
  | _ => false

/-- The tabular result the engine hands back for one statement
(column names and rows of values). -/
structure EngineResult where
  columns : List String
  rows : List (List Value)
deriving Repr

/-- The external collaborators of the tool operations, abstracted:
whether `import duckdb` succeeds, the `get_secure_path` resolver (modelled
from the spec: an external path-sandboxing collaborator that either returns
an absolute path or raises, the raise being any exception text), a file
existence test, the engine's response to an executed statement, and file
sizes.  The extra `workspace_id` / `agent_id` / `session_id` arguments of the
Python functions are only ever forwarded to the resolver, so they are folded
into `resolve`. -/
structure Env where
  duckdbAvailable : Bool
  resolve : String → Except String String
  fileExists : String → Bool
  run : String → List Value → Except String EngineResult
  fileSize : String → Int

/-- The success payload of `parquet_read` (the `{"success": True, ...}` dict;
`total_rows` is whatever value `fetchone()[0]` produced). -/
structure ReadResult where
  path : String
  columns : List String
  column_count : Nat
  rows : List (List Value)
  row_count : Nat
  total_rows : Value
  offset : Int
  limit : Option Int
deriving Repr

/-- Python `limit is not None and limit < 0`. -/
def pyNegLimit : Option Int → Bool
  | Option.some l => decide (l < 0)
  | Option.none => false

/-- `parquet_read` (lines 136-204), returning the result together with the
trace of externally visible actions it performed, in order.  `cursor.fetchone()[0]`
on the `COUNT(*)` result is modelled faithfully to Python: an empty result set
gives `None`, whose subscripting raises (caught by the handler), and an empty
first row raises `IndexError` (likewise caught). -/
def parquet_read (env : Env) (path : String) (limit : Option Int) (offset : Int)
    (selected_columns : List String) (filters : List FilterSpec)
    (group_by : List String) (order_by : List OrderSpec)
    (aggregates : List AggregateSpec) : Except String ReadResult × List Effect :=
  if offset < 0 then
    (Except.error "offset and limit must be non-negative", [])
  else if pyNegLimit limit then
    (Except.error "offset and limit must be non-negative", [])
  else if !(pyEndsWith (pyLower path) ".parquet") then
    (Except.error "File must have .parquet extension", [])
  else if !env.duckdbAvailable then
    (Except.error "duckdb is required for parquet tools", [])
  else
    match env.resolve path with
    | Except.error exc =>
      (Except.error ("Failed to read parquet: " ++ exc), [Effect.resolvePath path])
    | Except.ok secure_path =>
      if !(env.fileExists secure_path) then
        (Except.error ("File not found: " ++ path),
          [Effect.resolvePath path, Effect.checkExists secure_path])
      else
        match build_query "read_parquet(?)" selected_columns filters group_by
            order_by limit offset aggregates with
        | Except.error e =>
          (Except.error e, [Effect.resolvePath path, Effect.checkExists secure_path])
        | Except.ok bq =>
          let params := Value.str secure_path :: bq.params
          match env.run bq.query params with
          | Except.error exc =>
            (Except.error ("Failed to read parquet: " ++ exc),
              [Effect.resolvePath path, Effect.checkExists secure_path,
                Effect.engineExec bq.query params])
          | Except.ok result =>
            let countQuery := "SELECT COUNT(*) FROM read_parquet(?)"
            let trace := [Effect.resolvePath path, Effect.checkExists secure_path,
              Effect.engineExec bq.query params,
              Effect.engineExec countQuery [Value.str secure_path]]
            match env.run countQuery [Value.str secure_path] with
            | Except.error exc =>
              (Except.error ("Failed to read parquet: " ++ exc), trace)
            | Except.ok countRes =>
              match countRes.rows with
              | [] =>
                (Except.error
                  "Failed to read parquet: 'NoneType' object is not subscriptable", trace)
              | [] :: _ =>
                (Except.error "Failed to read parquet: tuple index out of range", trace)
              | (v :: _) :: _ =>
                (Except.ok
                  ⟨path, result.columns, result.columns.length, result.rows,
                    result.rows.length, v, offset, limit⟩, trace)

/-- The success payload of `parquet_write`. -/
structure WriteResult where
  path : String
  columns : List String
  column_count : Nat
  rows_written : Nat
deriving Repr

/-- `os.path.dirname` for the non-degenerate paths the resolver produces:
everything before the last `/`, the empty string when there is no `/`
(the POSIX root corner case `dirname "/a" = "/"` is not modelled; the
resolver always returns paths nested inside a workspace root). -/
def pyDirname (p : String) : String :=
  match p.data.reverse.dropWhile (fun c => !(c == '/')) with
  | [] => ""
  | _ :: rest => String.mk rest.reverse

/-- `parquet_write` (lines 207-247): extension check, empty-columns check,
duckdb requirement, path resolution, parent-directory creation, one `COPY`
statement; `rows_written` is `len(pd.DataFrame(rows, columns=columns))`,
i.e. the number of row dicts. -/
def parquet_write (env : Env) (path : String) (columns : List String)
    (rows : List (List (String × Value))) : Except String WriteResult × List Effect :=
  if !(pyEndsWith (pyLower path) ".parquet") then
    (Except.error "File must have .parquet extension", [])
  else if columns.isEmpty then
    (Except.error "columns cannot be empty", [])
  else if !env.duckdbAvailable then
    (Except.error "duckdb is required for parquet tools", [])
  else
    match env.resolve path with
    | Except.error exc =>
      (Except.error ("Failed to write parquet: " ++ exc), [Effect.resolvePath path])
    | Except.ok secure_path =>
      let parent_dir := pyDirname secure_path
      let dirEffects :=
        if parent_dir ≠ "" then [Effect.makeDirs parent_dir] else []
      let copyStmt := "COPY data_df TO ? (FORMAT PARQUET)"
      let trace := Effect.resolvePath path :: dirEffects ++
        [Effect.engineExec copyStmt [Value.str secure_path]]
      match env.run copyStmt [Value.str secure_path] with
      | Except.error exc =>
        (Except.error ("Failed to write parquet: " ++ exc), trace)
      | Except.ok _ =>
        (Except.ok ⟨path, columns, columns.length, rows.length⟩, trace)

/-- The success payload of `parquet_info` (the column names arrive as the
first entry of each `DESCRIBE` row, hence as engine values). -/
structure InfoResult where
  path : String
  columns : List Value
  column_count : Nat
  total_rows : Value
  file_size : Int
deriving Repr

/-- `[row[0] for row in describe]`: first entry of every row, raising
`IndexError` (as exception text) on an empty row tuple. -/
def firstOfEachRow : List (List Value) → Except String (List Value)
  | [] => Except.ok []
  | [] :: _ => Except.error "tuple index out of range"
  | (v :: _) :: rest => (firstOfEachRow rest).map (fun vs => v :: vs)

/-- `parquet_info` (lines 250-283): extension check, duckdb requirement,
path resolution, existence check, a `DESCRIBE` statement, a `COUNT(*)`
statement, and a file-size stat. -/
def parquet_info (env : Env) (path : String) : Except String InfoResult × List Effect :=
  if !(pyEndsWith (pyLower path) ".parquet") then
    (Except.error "File must have .parquet extension", [])
  else if !env.duckdbAvailable then
    (Except.error "duckdb is required for parquet tools", [])
  else
    match env.resolve path with
    | Except.error exc =>
      (Except.error ("Failed to read parquet info: " ++ exc), [Effect.resolvePath path])
    | Except.ok secure_path =>
      if !(env.fileExists secure_path) then
        (Except.error ("File not found: " ++ path),
          [Effect.resolvePath path, Effect.checkExists secure_path])
      else
        let describeStmt := "DESCRIBE SELECT * FROM read_parquet(?)"
        let trace2 := [Effect.resolvePath path, Effect.checkExists secure_path,
          Effect.engineExec describeStmt [Value.str secure_path]]
        match env.run describeStmt [Value.str secure_path] with
        | Except.error exc =>
          (Except.error ("Failed to read parquet info: " ++ exc), trace2)
        | Except.ok describeRes =>
          match firstOfEachRow describeRes.rows with
          | Except.error exc =>
            (Except.error ("Failed to read parquet info: " ++ exc), trace2)
          | Except.ok cols =>
            let countQuery := "SELECT COUNT(*) FROM read_parquet(?)"
            let trace3 := trace2 ++ [Effect.engineExec countQuery [Value.str secure_path]]
            match env.run countQuery [Value.str secure_path] with
            | Except.error exc =>
              (Except.error ("Failed to read parquet info: " ++ exc), trace3)
            | Except.ok countRes =>
              match countRes.rows with
              | [] =>
                (Except.error
                  "Failed to read parquet info: 'NoneType' object is not subscriptable",
                  trace3)
              | [] :: _ =>
                (Except.error "Failed to read parquet info: tuple index out of range",
                  trace3)
              | (v :: _) :: _ =>
                (Except.ok ⟨path, cols, cols.length, v, env.fileSize secure_path⟩,
                  trace3 ++ [Effect.statFileSize secure_path])

/-- Number of `?` placeholders in a piece of statement text. -/
def countQ (s : String) : Nat := s.data.count '?'

/-- The operator string the filter loop works with:
`str(condition.get("op", "")).lower()`. -/
def filterOp (f : FilterSpec) : String := pyLower (pyStr (Option.some (f.op.getD "")))

/-- The parameter values a filter contributes, in order: the list elements for
an `in` filter, the single value otherwise. -/
def filterValuesOf (f : FilterSpec) : List Value :=
  if filterOp f == "in" then
    match f.value with
    | Value.list vs => vs
    | v => [v]
  else [f.value]

/-- The `WHERE` fragment a (successfully processed) filter renders to. -/
def renderFilter (f : FilterSpec) : String :=
  if filterOp f == "in" then
    pyStr f.column ++ " IN (" ++ placeholderList (filterValuesOf f).length ++ ")"
  else
    pyStr f.column ++ " " ++ filterOp f ++ " ?"

/-- All checks the filter loop performs on one filter. -/
def filterOk (f : FilterSpec) : Bool :=
  !(pyFalsy f.column) && validate_identifier (pyStr f.column) &&
    ALLOWED_OPERATORS.contains (filterOp f) &&
    (if filterOp f == "in" then
      (match f.value with
        | Value.list (_ :: _) => true
        | _ => false)
    else true)

/-- The aggregate-function string the aggregate loop works with:
`str(agg.get("op", "")).lower()`. -/
def aggFunc (agg : AggregateSpec) : String := pyLower (pyStr (Option.some (agg.op.getD "")))

/-- The projection expression a (successfully processed) aggregate renders to:
`func(column)`, optionally `... AS alias`. -/
def renderAgg (agg : AggregateSpec) : String :=
  let expr := aggFunc agg ++ "(" ++ pyStr agg.column ++ ")"
  if pyFalsy agg.aliasName then expr else expr ++ " AS " ++ pyStr agg.aliasName

/-- All checks the aggregate loop performs on one aggregate. -/
def aggOk (agg : AggregateSpec) : Bool :=
  !(pyFalsy agg.column) && validate_identifier (pyStr agg.column) &&
    ALLOWED_AGGREGATES.contains (aggFunc agg) &&
    (pyFalsy agg.aliasName || validate_identifier (pyStr agg.aliasName))

/-- The direction string the order-by loop works with:
`str(entry.get("direction", "asc")).lower()`. -/
def orderDirection (e : OrderSpec) : String := pyLower (e.direction.getD "asc")

/-- The `ORDER BY` fragment a (successfully processed) entry renders to. -/
def renderOrder (e : OrderSpec) : String :=
  pyStr e.column ++ " " ++ pyUpper (orderDirection e)

/-- All checks the order-by loop performs on one entry. -/
def orderOk (e : OrderSpec) : Bool :=
  !(pyFalsy e.column) && validate_identifier (pyStr e.column) &&
    ALLOWED_ORDER.contains (orderDirection e)

/-- The projection list of the built statement, as the code constructs it. -/
def selectPartsOf (selected_columns group_by : List String)
    (aggregates : List AggregateSpec) : List String :=
  if group_by ≠ [] then
    if !aggregates.isEmpty then group_by ++ aggregates.map renderAgg else group_by
  else if selected_columns ≠ [] then selected_columns
  else ["*"]

/-- The `WHERE` clause of the built statement (empty when there are no filters). -/
def whereClauseOf (filters : List FilterSpec) : String :=
  if filters.isEmpty then "" else " WHERE " ++ pyJoin " AND " (filters.map renderFilter)

/-- The `GROUP BY` clause of the built statement. -/
def groupClauseOf (group_by : List String) : String :=
  if group_by ≠ [] then " GROUP BY " ++ pyJoin ", " group_by else ""

/-- The `ORDER BY` clause of the built statement. -/
def orderClauseOf (order_by : List OrderSpec) : String :=
  if order_by.isEmpty then "" else " ORDER BY " ++ pyJoin ", " (order_by.map renderOrder)

/-- The `LIMIT` clause of the built statement. -/
def limitClauseOf (limit : Option Int) : String :=
  if limit.isSome then " LIMIT ?" else ""

/-- The `OFFSET` clause of the built statement. -/
def offsetClauseOf (offset : Int) : String :=
  if offset ≠ 0 then " OFFSET ?" else ""

/-- The parameters contributed by the `LIMIT` clause. -/
def limitParams : Option Int → List Value
  | Option.some l => [Value.int l]
  | Option.none => []

/-- The parameters contributed by the `OFFSET` clause. -/
def offsetParams (offset : Int) : List Value :=
  if offset ≠ 0 then [Value.int offset] else []

/-- The full statement text of a successful `_build_query`. -/
def renderedQuery (table_expr : String) (selected_columns : List String)
    (filters : List FilterSpec) (group_by : List String) (order_by : List OrderSpec)
    (limit : Option Int) (offset : Int) (aggregates : List AggregateSpec) : String :=
  "SELECT " ++ pyJoin ", " (selectPartsOf selected_columns group_by aggregates) ++
    " FROM " ++ table_expr ++ whereClauseOf filters ++ groupClauseOf group_by ++
    orderClauseOf order_by ++ limitClauseOf limit ++ offsetClauseOf offset

/-- The full parameter list of a successful `_build_query`: the filter values
in input order, then the limit, then the offset. -/
def paramsOf (filters : List FilterSpec) (limit : Option Int) (offset : Int) : List Value :=
  (filters.map filterValuesOf).flatten ++ limitParams limit ++ offsetParams offset

/-- The placeholder count the spec's formula predicts for the clauses built
from a query spec: one per non-`in` filter, the element count for each `in`
filter, one for a given limit, one for a nonzero offset. -/
def specPlaceholderCount (filters : List FilterSpec) (limit : Option Int) (offset : Int) : Nat :=
  (filters.map (fun f => (filterValuesOf f).length)).sum +
    (if limit.isSome then 1 else 0) + (if offset ≠ 0 then 1 else 0)

/-- Modelled from the spec (claim C2): a name "matches
`^[A-Za-z_][A-Za-z0-9_]*$` as a full match of the entire string (not a search
or prefix match)". -/
def specFullMatch (name : String) : Bool :=
  match name.data with
  | [] => false
  | c :: rest => isIdentStartChar c && rest.all isIdentChar

/-- The shape of every error value `_build_query` can produce: an
invalid-identifier message naming one of the supplied column/alias strings
(as the code stringifies them), an unsupported operator/aggregate/direction
message naming the offending lower-cased string from the input, or the fixed
`IN`-value message. -/
def BuildQueryError (selected_columns group_by : List String) (filters : List FilterSpec)
    (order_by : List OrderSpec) (aggregates : List AggregateSpec) (e : String) : Prop :=
  (∃ c ∈ selected_columns, e = error_invalid_identifier c) ∨
    (∃ c ∈ group_by, e = error_invalid_identifier c) ∨
    (∃ a ∈ aggregates, e = error_invalid_identifier (pyStr a.column) ∨
      e = error_invalid_identifier (pyStr a.aliasName) ∨
      e = "Unsupported aggregate: " ++ aggFunc a) ∨
    (∃ f ∈ filters, e = error_invalid_identifier (pyStr f.column) ∨
      e = "Unsupported operator: " ++ filterOp f) ∨
    (∃ o ∈ order_by, e = error_invalid_identifier (pyStr o.column) ∨
      e = "Unsupported order direction: " ++ orderDirection o) ∨
    e = "IN operator requires a non-empty list value"

theorem countQ_append (a b : String) : countQ (a ++ b) = countQ a + countQ b := by
  simp [countQ, String.data_append, List.count_append]

theorem countQ_pyJoin (sep : String) (parts : List String) (h : countQ sep = 0) :
    countQ (pyJoin sep parts) = (parts.map countQ).sum := by
  induction parts with
  | nil => simp [pyJoin, countQ]
  | cons x xs ih =>
    cases xs with
    | nil => simp [pyJoin]
    | cons y ys =>
      simp only [pyJoin, List.map_cons, List.sum_cons] at ih ⊢
      rw [countQ_append, countQ_append, h, ih]
      omega

theorem identTail_chars (cs : List Char) (h : identTail cs = true) :
    ∀ c ∈ cs, isIdentChar c = true ∨ c = '\n' := by
  induction cs with
  | nil => simp
  | cons c0 rest ih =>
    simp only [identTail, Bool.or_eq_true, Bool.and_eq_true, beq_iff_eq] at h
    intro c hc
    rcases h with ⟨h0, htail⟩ | ⟨h0, hempty⟩
    · rcases List.mem_cons.mp hc with rfl | hc
      · exact Or.inl h0
      · exact ih htail c hc
    · rw [List.isEmpty_iff] at hempty
      subst hempty
      rcases List.mem_cons.mp hc with rfl | hc
      · exact Or.inr h0
      · simp at hc

theorem validate_identifier_chars {s : String} (h : validate_identifier s = true) :
    ∀ c ∈ s.data, isIdentStartChar c = true ∨ isIdentChar c = true ∨ c = '\n' := by
  unfold validate_identifier at h
  intro c hc
  cases hs : s.data with
  | nil => rw [hs] at hc; simp at hc
  | cons c0 rest =>
    rw [hs] at h hc
    simp only [Bool.and_eq_true] at h
    rcases List.mem_cons.mp hc with rfl | hc
    · exact Or.inl h.1
    · rcases identTail_chars rest h.2 c hc with h' | h'
      · exact Or.inr (Or.inl h')
      · exact Or.inr (Or.inr h')

theorem validate_identifier_countQ {s : String} (h : validate_identifier s = true) :
    countQ s = 0 := by
  rw [countQ, List.count_eq_zero]
  intro hmem
  rcases validate_identifier_chars h '?' hmem with h' | h' | h'
  · exact absurd h' (by decide)
  · exact absurd h' (by decide)
  · exact absurd h' (by decide)

theorem validate_identifier_ne_empty {s : String} (h : validate_identifier s = true) :
    s ≠ "" := by
  intro he
  subst he
  exact absurd h (by decide)

theorem allowed_operator_cases {op : String} (h : ALLOWED_OPERATORS.contains op = true) :
    op = "=" ∨ op = "!=" ∨ op = ">" ∨ op = "<" ∨ op = ">=" ∨ op = "<=" ∨
      op = "in" ∨ op = "like" := by
  have hm : op ∈ ALLOWED_OPERATORS := by simpa using h
  simpa [ALLOWED_OPERATORS] using hm

theorem allowed_operator_countQ {op : String} (h : ALLOWED_OPERATORS.contains op = true) :
    countQ op = 0 := by
  rcases allowed_operator_cases h with rfl | rfl | rfl | rfl | rfl | rfl | rfl | rfl <;> rfl

theorem allowed_aggregate_cases {f : String} (h : ALLOWED_AGGREGATES.contains f = true) :
    f = "count" ∨ f = "sum" ∨ f = "avg" ∨ f = "min" ∨ f = "max" := by
  have hm : f ∈ ALLOWED_AGGREGATES := by simpa using h
  simpa [ALLOWED_AGGREGATES] using hm

theorem allowed_aggregate_countQ {f : String} (h : ALLOWED_AGGREGATES.contains f = true) :
    countQ f = 0 := by
  rcases allowed_aggregate_cases h with rfl | rfl | rfl | rfl | rfl <;> rfl

theorem allowed_order_cases {d : String} (h : ALLOWED_ORDER.contains d = true) :
    d = "asc" ∨ d = "desc" := by
  have hm : d ∈ ALLOWED_ORDER := by simpa using h
  simpa [ALLOWED_ORDER] using hm

theorem countQ_placeholderList (n : Nat) : countQ (placeholderList n) = n := by
  have h1 : countQ "?" = 1 := rfl
  rw [placeholderList, countQ_pyJoin _ _ (by rfl)]
  simp [List.map_replicate, h1, List.sum_replicate]

theorem countQ_renderFilter {f : FilterSpec} (h : filterOk f = true) :
    countQ (renderFilter f) = (filterValuesOf f).length := by
  simp only [filterOk, Bool.and_eq_true] at h
  obtain ⟨⟨⟨_, hval⟩, hop⟩, hin⟩ := h
  rw [renderFilter]
  split
  · have h2 : countQ " IN (" = 0 := rfl
    have h3 : countQ ")" = 0 := rfl
    rw [countQ_append, countQ_append, countQ_append,
      validate_identifier_countQ hval, countQ_placeholderList, h2, h3]
    omega
  · rename_i hnotin
    have h2 : countQ " " = 0 := rfl
    have h3 : countQ " ?" = 1 := rfl
    rw [countQ_append, countQ_append, countQ_append,
      validate_identifier_countQ hval, allowed_operator_countQ hop, h2, h3]
    have hlen : (filterValuesOf f).length = 1 := by
      rw [filterValuesOf]
      split
      · exact absurd (by assumption) hnotin
      · rfl
    omega

theorem countQ_renderAgg {a : AggregateSpec} (h : aggOk a = true) :
    countQ (renderAgg a) = 0 := by
  simp only [aggOk, Bool.and_eq_true, Bool.or_eq_true] at h
  obtain ⟨⟨⟨_, hval⟩, hfunc⟩, halias⟩ := h
  have h2 : countQ "(" = 0 := rfl
  have h3 : countQ ")" = 0 := rfl
  have h4 : countQ " AS " = 0 := rfl
  rw [renderAgg]
  split
  · rw [countQ_append, countQ_append, countQ_append,
      validate_identifier_countQ hval, allowed_aggregate_countQ hfunc, h2, h3]
  · rcases halias with halias | halias
    · rename_i hfal; exact absurd halias hfal
    · rw [countQ_append, countQ_append, countQ_append, countQ_append, countQ_append,
        validate_identifier_countQ hval, allowed_aggregate_countQ hfunc,
        validate_identifier_countQ halias, h2, h3, h4]

theorem countQ_renderOrder {e : OrderSpec} (h : orderOk e = true) :
    countQ (renderOrder e) = 0 := by
  simp only [orderOk, Bool.and_eq_true] at h
  obtain ⟨⟨_, hval⟩, hdir⟩ := h
  rw [renderOrder, countQ_append, countQ_append, validate_identifier_countQ hval]
  rcases allowed_order_cases hdir with hd | hd <;> rw [hd] <;> rfl

theorem checkIdentList_ok {cs : List String} (h : checkIdentList cs = Except.ok ()) :
    ∀ c ∈ cs, validate_identifier c = true := by
  induction cs with
  | nil => simp
  | cons c0 rest ih =>
    rw [checkIdentList] at h
    split at h
    · rename_i hv
      intro c hc
      rcases List.mem_cons.mp hc with rfl | hc
      · exact hv
      · exact ih h c hc
    · simp at h

theorem checkIdentList_error {cs : List String} {e : String}
    (h : checkIdentList cs = Except.error e) :
    ∃ c ∈ cs, validate_identifier c = false ∧ e = error_invalid_identifier c := by
  induction cs with
  | nil => rw [checkIdentList] at h; simp at h
  | cons c0 rest ih =>
    rw [checkIdentList] at h
    split at h
    · rcases ih h with ⟨c, hc, hv, he⟩
      exact ⟨c, List.mem_cons_of_mem _ hc, hv, he⟩
    · rename_i hv
      injection h with h
      exact ⟨c0, List.mem_cons_self c0 rest, by simpa using hv, h.symm⟩

theorem buildWhere_ok {fs : List FilterSpec} {ws : List String} {ps : List Value}
    (h : buildWhere fs = Except.ok (ws, ps)) :
    ws = fs.map renderFilter ∧ ps = (fs.map filterValuesOf).flatten ∧
      ∀ f ∈ fs, filterOk f = true := by
  induction fs generalizing ws ps with
  | nil =>
    rw [buildWhere] at h
    injection h with h
    injection h with h1 h2
    subst h1; subst h2
    simp
  | cons f rest ih =>
    simp only [buildWhere] at h
    split at h
    · simp at h
    · rename_i hcol
      split at h
      · simp at h
      · rename_i hop
        simp only [Bool.or_eq_true, not_or, Bool.not_eq_true, Bool.not_eq_false] at hcol
        obtain ⟨hfal, hval⟩ := hcol
        have hval' : validate_identifier (pyStr f.column) = true := by simpa using hval
        have hop' : ALLOWED_OPERATORS.contains (pyLower (pyStr (Option.some (f.op.getD "")))) = true := by
          simpa using hop
        have hmem : pyLower (pyStr (Option.some (f.op.getD ""))) ∈ ALLOWED_OPERATORS := by
          simpa using hop'
        split at h
        · rename_i hin
          have hineq : pyLower (pyStr (Option.some (f.op.getD ""))) = "in" := by simpa using hin
          split at h
          · simp at h
          · rename_i v vs hveq
            cases hrest : buildWhere rest with
            | error e => rw [hrest] at h; simp [Except.map] at h
            | ok wp =>
              rw [hrest] at h
              simp only [Except.map] at h
              injection h with h
              injection h with h1 h2
              obtain ⟨ihw, ihp, ihok⟩ := ih hrest
              have hfo : (filterOp f == "in") = true := hin
              have hfv : filterValuesOf f = v :: vs := by
                simp [filterValuesOf, hfo, hveq]
              refine ⟨?_, ?_, ?_⟩
              · rw [← h1, List.map_cons, ← ihw, renderFilter, if_pos hfo, hfv]
              · rw [← h2, List.map_cons, List.flatten_cons, ← ihp, hfv]
              · intro g hg
                rcases List.mem_cons.mp hg with rfl | hg
                · simp [filterOk, filterOp, hfal, hval', hineq, hveq, ALLOWED_OPERATORS]
                · exact ihok g hg
          · rename_i hnl
            simp at h
        · rename_i hin
          have hineq : ¬ pyLower (pyStr (Option.some (f.op.getD ""))) = "in" := by
            simpa using hin
          cases hrest : buildWhere rest with
          | error e => rw [hrest] at h; simp [Except.map] at h
          | ok wp =>
            rw [hrest] at h
            simp only [Except.map] at h
            injection h with h
            injection h with h1 h2
            obtain ⟨ihw, ihp, ihok⟩ := ih hrest
            have hfo : ¬(filterOp f == "in") = true := hin
            have hfv : filterValuesOf f = [f.value] := by
              simp only [filterValuesOf]
              rw [if_neg hfo]
            refine ⟨?_, ?_, ?_⟩
            · rw [← h1, List.map_cons, ← ihw, renderFilter, if_neg hfo]
              simp [filterOp]
            · rw [← h2, List.map_cons, List.flatten_cons, ← ihp, hfv]
              rfl
            · intro g hg
              rcases List.mem_cons.mp hg with rfl | hg
              · simp [filterOk, filterOp, hfal, hval', hmem, hineq]
              · exact ihok g hg

theorem buildWhere_error {fs : List FilterSpec} {e : String}
    (h : buildWhere fs = Except.error e) :
    (∃ f ∈ fs, e = error_invalid_identifier (pyStr f.column)) ∨
      (∃ f ∈ fs, e = "Unsupported operator: " ++ filterOp f) ∨
      e = "IN operator requires a non-empty list value" := by
  induction fs with
  | nil => rw [buildWhere] at h; simp at h
  | cons f rest ih =>
    simp only [buildWhere] at h
    split at h
    · injection h with h
      exact Or.inl ⟨f, List.mem_cons_self f rest, h.symm⟩
    · split at h
      · injection h with h
        exact Or.inr (Or.inl ⟨f, List.mem_cons_self f rest, h.symm⟩)
      · have step : ∀ hr : buildWhere rest = Except.error e,
            (∃ g ∈ f :: rest, e = error_invalid_identifier (pyStr g.column)) ∨
              (∃ g ∈ f :: rest, e = "Unsupported operator: " ++ filterOp g) ∨
              e = "IN operator requires a non-empty list value" := by
          intro hr
          rcases ih hr with ⟨g, hg, hge⟩ | ⟨g, hg, hge⟩ | hge
          · exact Or.inl ⟨g, List.mem_cons_of_mem _ hg, hge⟩
          · exact Or.inr (Or.inl ⟨g, List.mem_cons_of_mem _ hg, hge⟩)
          · exact Or.inr (Or.inr hge)
        split at h
        · split at h
          · injection h with h
            exact Or.inr (Or.inr h.symm)
          · cases hrest : buildWhere rest with
            | error e' =>
              rw [hrest] at h
              simp only [Except.map] at h
              injection h with h
              subst h
              exact step hrest
            | ok wp => rw [hrest] at h; simp [Except.map] at h
          · injection h with h
            exact Or.inr (Or.inr h.symm)
        · cases hrest : buildWhere rest with
          | error e' =>
            rw [hrest] at h
            simp only [Except.map] at h
            injection h with h
            subst h
            exact step hrest
          | ok wp => rw [hrest] at h; simp [Except.map] at h

theorem buildOrder_ok {obs : List OrderSpec} {os : List String}
    (h : buildOrder obs = Except.ok os) :
    os = obs.map renderOrder ∧ ∀ o ∈ obs, orderOk o = true := by
  induction obs generalizing os with
  | nil =>
    rw [buildOrder] at h
    injection h with h
    subst h
    simp
  | cons o rest ih =>
    simp only [buildOrder] at h
    split at h
    · simp at h
    · rename_i hcol
      split at h
      · simp at h
      · rename_i hdir
        simp only [Bool.or_eq_true, not_or, Bool.not_eq_true, Bool.not_eq_false] at hcol
        obtain ⟨hfal, hval⟩ := hcol
        have hval' : validate_identifier (pyStr o.column) = true := by simpa using hval
        have hdir' : ALLOWED_ORDER.contains (pyLower (o.direction.getD "asc")) = true := by
          simpa using hdir
        cases hrest : buildOrder rest with
        | error e => rw [hrest] at h; simp [Except.map] at h
        | ok os' =>
          rw [hrest] at h
          simp only [Except.map] at h
          injection h with h
          obtain ⟨iho, ihok⟩ := ih hrest
          constructor
          · rw [← h, List.map_cons, ← iho, renderOrder]
            simp [orderDirection]
          · intro g hg
            rcases List.mem_cons.mp hg with rfl | hg
            · simp [orderOk, orderDirection, hfal, hval']
              simpa using hdir'
            · exact ihok g hg

theorem buildOrder_error {obs : List OrderSpec} {e : String}
    (h : buildOrder obs = Except.error e) :
    (∃ o ∈ obs, e = error_invalid_identifier (pyStr o.column)) ∨
      (∃ o ∈ obs, e = "Unsupported order direction: " ++ orderDirection o) := by
  induction obs with
  | nil => rw [buildOrder] at h; simp at h
  | cons o rest ih =>
    simp only [buildOrder] at h
    split at h
    · injection h with h
      exact Or.inl ⟨o, List.mem_cons_self o rest, h.symm⟩
    · split at h
      · injection h with h
        exact Or.inr ⟨o, List.mem_cons_self o rest, h.symm⟩
      · cases hrest : buildOrder rest with
        | error e' =>
          rw [hrest] at h
          simp only [Except.map] at h
          injection h with h
          subst h
          rcases ih hrest with ⟨g, hg, hge⟩ | ⟨g, hg, hge⟩
          · exact Or.inl ⟨g, List.mem_cons_of_mem _ hg, hge⟩
          · exact Or.inr ⟨g, List.mem_cons_of_mem _ hg, hge⟩
        | ok os' => rw [hrest] at h; simp [Except.map] at h

theorem buildAggExprs_ok {aggs : List AggregateSpec} {es : List String}
    (h : buildAggExprs aggs = Except.ok es) :
    es = aggs.map renderAgg ∧ ∀ a ∈ aggs, aggOk a = true := by
  induction aggs generalizing es with
  | nil =>
    rw [buildAggExprs] at h
    injection h with h
    subst h
    simp
  | cons a rest ih =>
    simp only [buildAggExprs] at h
    split at h
    · simp at h
    · rename_i hcol
      split at h
      · simp at h
      · rename_i hfunc
        simp only [Bool.or_eq_true, not_or, Bool.not_eq_true, Bool.not_eq_false] at hcol
        obtain ⟨hfal, hval⟩ := hcol
        have hval' : validate_identifier (pyStr a.column) = true := by simpa using hval
        have hfunc' : ALLOWED_AGGREGATES.contains (pyLower (pyStr (Option.some (a.op.getD "")))) = true := by
          simpa using hfunc
        split at h
        · rename_i halias
          cases hrest : buildAggExprs rest with
          | error e => rw [hrest] at h; simp [Except.map] at h
          | ok es' =>
            rw [hrest] at h
            simp only [Except.map] at h
            injection h with h
            obtain ⟨ihe, ihok⟩ := ih hrest
            constructor
            · rw [← h, List.map_cons, ← ihe, renderAgg, if_pos halias]
              simp [aggFunc]
            · intro g hg
              rcases List.mem_cons.mp hg with rfl | hg
              · simp [aggOk, aggFunc, hfal, hval', halias]
                simpa using hfunc'
              · exact ihok g hg
        · rename_i halias
          split at h
          · simp at h
          · rename_i hav
            have hav' : validate_identifier (pyStr a.aliasName) = true := by simpa using hav
            cases hrest : buildAggExprs rest with
            | error e => rw [hrest] at h; simp [Except.map] at h
            | ok es' =>
              rw [hrest] at h
              simp only [Except.map] at h
              injection h with h
              obtain ⟨ihe, ihok⟩ := ih hrest
              constructor
              · rw [← h, List.map_cons, ← ihe, renderAgg, if_neg halias]
                simp [aggFunc]
              · intro g hg
                rcases List.mem_cons.mp hg with rfl | hg
                · simp [aggOk, aggFunc, hfal, hval', hav']
                  simpa using hfunc'
                · exact ihok g hg

theorem buildAggExprs_error {aggs : List AggregateSpec} {e : String}
    (h : buildAggExprs aggs = Except.error e) :
    (∃ a ∈ aggs, e = error_invalid_identifier (pyStr a.column)) ∨
      (∃ a ∈ aggs, e = error_invalid_identifier (pyStr a.aliasName)) ∨
      (∃ a ∈ aggs, e = "Unsupported aggregate: " ++ aggFunc a) := by
  induction aggs with
  | nil => rw [buildAggExprs] at h; simp at h
  | cons a rest ih =>
    have step : ∀ hr : buildAggExprs rest = Except.error e,
        (∃ g ∈ a :: rest, e = error_invalid_identifier (pyStr g.column)) ∨
          (∃ g ∈ a :: rest, e = error_invalid_identifier (pyStr g.aliasName)) ∨
          (∃ g ∈ a :: rest, e = "Unsupported aggregate: " ++ aggFunc g) := by
      intro hr
      rcases ih hr with ⟨g, hg, hge⟩ | ⟨g, hg, hge⟩ | ⟨g, hg, hge⟩
      · exact Or.inl ⟨g, List.mem_cons_of_mem _ hg, hge⟩
      · exact Or.inr (Or.inl ⟨g, List.mem_cons_of_mem _ hg, hge⟩)
      · exact Or.inr (Or.inr ⟨g, List.mem_cons_of_mem _ hg, hge⟩)
    simp only [buildAggExprs] at h
    split at h
    · injection h with h
      exact Or.inl ⟨a, List.mem_cons_self a rest, h.symm⟩
    · split at h
      · injection h with h
        exact Or.inr (Or.inr ⟨a, List.mem_cons_self a rest, h.symm⟩)
      · split at h
        · cases hrest : buildAggExprs rest with
          | error e' =>
            rw [hrest] at h
            simp only [Except.map] at h
            injection h with h
            subst h
            exact step hrest
          | ok es' => rw [hrest] at h; simp [Except.map] at h
        · split at h
          · injection h with h
            exact Or.inr (Or.inl ⟨a, List.mem_cons_self a rest, h.symm⟩)
          · cases hrest : buildAggExprs rest with
            | error e' =>
              rw [hrest] at h
              simp only [Except.map] at h
              injection h with h
              subst h
              exact step hrest
            | ok es' => rw [hrest] at h; simp [Except.map] at h

theorem buildSelectParts_ok {sc gb : List String} {ag : List AggregateSpec} {sp : List String}
    (h : buildSelectParts sc gb ag = Except.ok sp) :
    sp = selectPartsOf sc gb ag ∧ (gb ≠ [] → ∀ a ∈ ag, aggOk a = true) := by
  unfold buildSelectParts at h
  by_cases hg : gb = []
  · subst hg
    simp only [ne_eq, not_true_eq_false, if_false, reduceIte] at h
    by_cases hs : sc = []
    · subst hs
      simp only [ne_eq, not_true_eq_false, reduceIte, pure, Except.pure] at h
      injection h with h
      exact ⟨by simp [selectPartsOf, h.symm], by simp⟩
    · rw [if_pos hs, ] at h
      simp only [pure, Except.pure] at h
      injection h with h
      exact ⟨by simp [selectPartsOf, hs, h.symm], by simp⟩
  · rw [if_pos hg] at h
    by_cases ha : ag.isEmpty
    · rw [ha] at h
      simp only [Bool.not_true, Bool.false_eq_true, if_false, pure, Except.pure] at h
      injection h with h
      refine ⟨by simp [selectPartsOf, hg, ha, h.symm], ?_⟩
      intro _ a hag
      rw [List.isEmpty_iff] at ha
      subst ha
      simp at hag
    · have ha' : (!ag.isEmpty) = true := by simpa using ha
      rw [ha'] at h
      simp only [if_true] at h
      cases hagg : buildAggExprs ag with
      | error e => rw [hagg] at h; simp [Except.map] at h
      | ok es =>
        rw [hagg] at h
        simp only [Except.map] at h
        injection h with h
        obtain ⟨hes, hok⟩ := buildAggExprs_ok hagg
        refine ⟨?_, fun _ => hok⟩
        rw [← h, hes]
        simp [selectPartsOf, hg, ha]

theorem buildSelectParts_error {sc gb : List String} {ag : List AggregateSpec} {e : String}
    (h : buildSelectParts sc gb ag = Except.error e) :
    buildAggExprs ag = Except.error e := by
  unfold buildSelectParts at h
  split at h
  · split at h
    · cases hagg : buildAggExprs ag with
      | error e' =>
        rw [hagg] at h
        simp only [Except.map] at h
        injection h with h
        rw [h]
      | ok es => rw [hagg] at h; simp [Except.map] at h
    · simp [pure, Except.pure] at h
  · split at h
    · simp [pure, Except.pure] at h
    · simp [pure, Except.pure] at h

theorem buildQueryCore_ok {te : String} {sc : List String} {fs : List FilterSpec}
    {gb : List String} {ob : List OrderSpec} {ag : List AggregateSpec}
    {q : String} {ps : List Value}
    (h : buildQueryCore te sc fs gb ob ag = Except.ok (q, ps)) :
    q = "SELECT " ++ pyJoin ", " (selectPartsOf sc gb ag) ++ " FROM " ++ te ++
        whereClauseOf fs ++ groupClauseOf gb ++ orderClauseOf ob ∧
      ps = (fs.map filterValuesOf).flatten ∧
      (∀ c ∈ sc, validate_identifier c = true) ∧
      (∀ c ∈ gb, validate_identifier c = true) ∧
      (∀ f ∈ fs, filterOk f = true) ∧
      (∀ o ∈ ob, orderOk o = true) ∧
      (gb ≠ [] → ∀ a ∈ ag, aggOk a = true) := by
  unfold buildQueryCore at h
  cases hsc : checkIdentList sc with
  | error e => rw [hsc] at h; simp [Bind.bind, Except.bind] at h
  | ok u =>
  cases u
  rw [hsc] at h
  cases hgb : checkIdentList gb with
  | error e => rw [hgb] at h; simp [Bind.bind, Except.bind] at h
  | ok u =>
  cases u
  rw [hgb] at h
  cases hsel : buildSelectParts sc gb ag with
  | error e => rw [hsel] at h; simp [Bind.bind, Except.bind] at h
  | ok sp =>
  rw [hsel] at h
  obtain ⟨hspVal, haggOk⟩ := buildSelectParts_ok hsel
  cases hwp : buildWhere fs with
  | error e => rw [hwp] at h; simp [Bind.bind, Except.bind] at h
  | ok wp =>
  rw [hwp] at h
  obtain ⟨hw1, hw2, hfOk⟩ := buildWhere_ok (show buildWhere fs = Except.ok (wp.1, wp.2) by rw [hwp])
  cases hord : buildOrder ob with
  | error e => rw [hord] at h; simp [Bind.bind, Except.bind] at h
  | ok ops =>
  rw [hord] at h
  obtain ⟨ho1, hoOk⟩ := buildOrder_ok hord
  simp only [Bind.bind, Except.bind, pure, Except.pure] at h
  injection h with h
  injection h with h1 h2
  refine ⟨?_, by rw [← h2, hw2], checkIdentList_ok hsc, checkIdentList_ok hgb, hfOk, hoOk, haggOk⟩
  subst hspVal
  rw [← h1]
  have hwnil : (wp.1 ≠ []) = (fs ≠ []) := by
    simp [hw1, List.map_eq_nil_iff]
  have honil : (ops ≠ []) = (ob ≠ []) := by
    simp [ho1, List.map_eq_nil_iff]
  by_cases hfs : fs = [] <;> by_cases hg : gb = [] <;> by_cases hob : ob = [] <;>
    simp [hwnil, honil, hfs, hg, hob, whereClauseOf, groupClauseOf, orderClauseOf,
      hw1, ho1, List.isEmpty_iff, String.append_empty, String.append_assoc]

theorem build_query_ok {te : String} {sc : List String} {fs : List FilterSpec}
    {gb : List String} {ob : List OrderSpec} {lim : Option Int} {off : Int}
    {ag : List AggregateSpec} {bq : BuiltQuery}
    (h : build_query te sc fs gb ob lim off ag = Except.ok bq) :
    bq.query = renderedQuery te sc fs gb ob lim off ag ∧
      bq.params = paramsOf fs lim off ∧
      (∀ c ∈ sc, validate_identifier c = true) ∧
      (∀ c ∈ gb, validate_identifier c = true) ∧
      (∀ f ∈ fs, filterOk f = true) ∧
      (∀ o ∈ ob, orderOk o = true) ∧
      (gb ≠ [] → ∀ a ∈ ag, aggOk a = true) := by
  unfold build_query at h
  cases hc : buildQueryCore te sc fs gb ob ag with
  | error e => rw [hc] at h; simp [Bind.bind, Except.bind] at h
  | ok core =>
  rw [hc] at h
  simp only [Bind.bind, Except.bind, pure, Except.pure] at h
  injection h with h
  obtain ⟨hq, hp, hv1, hv2, hv3, hv4, hv5⟩ :=
    buildQueryCore_ok (show buildQueryCore te sc fs gb ob ag = Except.ok (core.1, core.2) by
      rw [hc])
  subst h
  refine ⟨?_, ?_, hv1, hv2, hv3, hv4, hv5⟩
  · show (if off ≠ 0 then (if lim.isSome then core.1 ++ " LIMIT ?" else core.1) ++ " OFFSET ?"
      else if lim.isSome then core.1 ++ " LIMIT ?" else core.1) = _
    rw [renderedQuery]
    by_cases hoff : off = 0 <;> cases lim <;>
      simp [hoff, limitClauseOf, offsetClauseOf, hq, String.append_assoc, String.append_empty]
  · show (if off ≠ 0 then
      (match lim with
        | Option.some l => core.2 ++ [Value.int l]
        | Option.none => core.2) ++ [Value.int off]
      else match lim with
        | Option.some l => core.2 ++ [Value.int l]
        | Option.none => core.2) = _
    rw [paramsOf]
    by_cases hoff : off = 0 <;> cases lim <;>
      simp [hoff, limitParams, offsetParams, hp, List.append_assoc]

theorem buildQueryCore_error {te : String} {sc : List String} {fs : List FilterSpec}
    {gb : List String} {ob : List OrderSpec} {ag : List AggregateSpec} {e : String}
    (h : buildQueryCore te sc fs gb ob ag = Except.error e) :
    checkIdentList sc = Except.error e ∨ checkIdentList gb = Except.error e ∨
      buildAggExprs ag = Except.error e ∨ buildWhere fs = Except.error e ∨
      buildOrder ob = Except.error e := by
  unfold buildQueryCore at h
  cases hsc : checkIdentList sc with
  | error e' =>
    rw [hsc] at h
    simp only [Bind.bind, Except.bind] at h
    injection h with h
    subst h
    exact Or.inl rfl
  | ok u =>
  cases u
  rw [hsc] at h
  cases hgb : checkIdentList gb with
  | error e' =>
    rw [hgb] at h
    simp only [Bind.bind, Except.bind] at h
    injection h with h
    subst h
    exact Or.inr (Or.inl rfl)
  | ok u =>
  cases u
  rw [hgb] at h
  cases hsel : buildSelectParts sc gb ag with
  | error e' =>
    rw [hsel] at h
    simp only [Bind.bind, Except.bind] at h
    injection h with h
    subst h
    exact Or.inr (Or.inr (Or.inl (buildSelectParts_error hsel)))
  | ok sp =>
  rw [hsel] at h
  cases hwp : buildWhere fs with
  | error e' =>
    rw [hwp] at h
    simp only [Bind.bind, Except.bind] at h
    injection h with h
    subst h
    exact Or.inr (Or.inr (Or.inr (Or.inl rfl)))
  | ok wp =>
  rw [hwp] at h
  cases hord : buildOrder ob with
  | error e' =>
    rw [hord] at h
    simp only [Bind.bind, Except.bind] at h
    injection h with h
    subst h
    exact Or.inr (Or.inr (Or.inr (Or.inr rfl)))
  | ok ops =>
  rw [hord] at h
  simp [Bind.bind, Except.bind, pure, Except.pure] at h

theorem build_query_error {te : String} {sc : List String} {fs : List FilterSpec}
    {gb : List String} {ob : List OrderSpec} {lim : Option Int} {off : Int}
    {ag : List AggregateSpec} {e : String}
    (h : build_query te sc fs gb ob lim off ag = Except.error e) :
    BuildQueryError sc gb fs ob ag e := by
  unfold build_query at h
  cases hc : buildQueryCore te sc fs gb ob ag with
  | ok core => rw [hc] at h; simp [Bind.bind, Except.bind, pure, Except.pure] at h
  | error e' =>
  rw [hc] at h
  simp only [Bind.bind, Except.bind] at h
  injection h with h
  subst h
  rcases buildQueryCore_error hc with h' | h' | h' | h' | h'
  · rcases checkIdentList_error h' with ⟨c, hc', _, he⟩
    exact Or.inl ⟨c, hc', he⟩
  · rcases checkIdentList_error h' with ⟨c, hc', _, he⟩
    exact Or.inr (Or.inl ⟨c, hc', he⟩)
  · rcases buildAggExprs_error h' with ⟨a, ha, he⟩ | ⟨a, ha, he⟩ | ⟨a, ha, he⟩
    · exact Or.inr (Or.inr (Or.inl ⟨a, ha, Or.inl he⟩))
    · exact Or.inr (Or.inr (Or.inl ⟨a, ha, Or.inr (Or.inl he)⟩))
    · exact Or.inr (Or.inr (Or.inl ⟨a, ha, Or.inr (Or.inr he)⟩))
  · rcases buildWhere_error h' with ⟨f, hf, he⟩ | ⟨f, hf, he⟩ | he
    · exact Or.inr (Or.inr (Or.inr (Or.inl ⟨f, hf, Or.inl he⟩)))
    · exact Or.inr (Or.inr (Or.inr (Or.inl ⟨f, hf, Or.inr he⟩)))
    · exact Or.inr (Or.inr (Or.inr (Or.inr (Or.inr he))))
  · rcases buildOrder_error h' with ⟨o, ho, he⟩ | ⟨o, ho, he⟩
    · exact Or.inr (Or.inr (Or.inr (Or.inr (Or.inl ⟨o, ho, Or.inl he⟩))))
    · exact Or.inr (Or.inr (Or.inr (Or.inr (Or.inl ⟨o, ho, Or.inr he⟩))))

theorem identTail_iff (cs : List Char) :
    identTail cs = true ↔
      cs.all isIdentChar = true ∨
        ∃ body, cs = body ++ ['\n'] ∧ body.all isIdentChar = true := by
  induction cs with
  | nil =>
    simp only [identTail, List.all_nil, true_or, iff_true]
  | cons c rest ih =>
    simp only [identTail, Bool.or_eq_true, Bool.and_eq_true, beq_iff_eq, List.all_cons]
    constructor
    · rintro (⟨hc, ht⟩ | ⟨hc, hemp⟩)
      · rcases ih.mp ht with h | ⟨body, rfl, hb⟩
        · exact Or.inl ⟨hc, h⟩
        · exact Or.inr ⟨c :: body, rfl, by simp [hc, hb]⟩
      · rw [List.isEmpty_iff] at hemp
        subst hemp
        subst hc
        exact Or.inr ⟨[], rfl, rfl⟩
    · rintro (⟨hc, h⟩ | ⟨body, heq, hb⟩)
      · exact Or.inl ⟨hc, ih.mpr (Or.inl h)⟩
      · cases body with
        | nil =>
          simp only [List.nil_append, List.cons.injEq] at heq
          obtain ⟨rfl, rfl⟩ := heq
          exact Or.inr ⟨rfl, rfl⟩
        | cons b bs =>
          simp only [List.cons_append, List.cons.injEq] at heq
          obtain ⟨rfl, rfl⟩ := heq
          simp only [List.all_cons, Bool.and_eq_true] at hb
          exact Or.inl ⟨hb.1, ih.mpr (Or.inr ⟨bs, rfl, hb.2⟩)⟩

theorem validate_identifier_iff (s : String) :
    validate_identifier s = true ↔
      specFullMatch s = true ∨ ∃ t, s = t ++ "\n" ∧ specFullMatch t = true := by
  cases s with
  | mk l =>
    cases l with
    | nil =>
      constructor
      · intro h; exact absurd h (by decide)
      · rintro (h | ⟨t, ht, hm⟩)
        · exact absurd h (by decide)
        · exfalso
          have hd : ([] : List Char) = t.data ++ ['\n'] := by
            have h2 := congrArg String.data ht
            rw [String.data_append] at h2
            exact h2
          simp at hd
    | cons c rest =>
      show (isIdentStartChar c && identTail rest) = true ↔ _
      simp only [Bool.and_eq_true]
      constructor
      · rintro ⟨hc, ht⟩
        rcases (identTail_iff rest).mp ht with h | ⟨body, rfl, hb⟩
        · exact Or.inl (by simp [specFullMatch, hc, h])
        · refine Or.inr ⟨String.mk (c :: body), ?_, ?_⟩
          · show String.mk (c :: (body ++ ['\n'])) = String.mk (c :: body) ++ "\n"
            rfl
          · simp [specFullMatch, hc, hb]
      · rintro (h | ⟨t, ht, hm⟩)
        · simp only [specFullMatch, Bool.and_eq_true] at h
          exact ⟨h.1, (identTail_iff rest).mpr (Or.inl h.2)⟩
        · have hd : c :: rest = t.data ++ ['\n'] := by
            have := congrArg String.data ht
            simpa [String.data_append] using this
          cases htd : t.data with
          | nil => rw [htd] at hd; simp at hd; simp [specFullMatch, htd] at hm
          | cons c0 body =>
            rw [htd] at hd
            simp only [List.cons_append, List.cons.injEq] at hd
            obtain ⟨rfl, rfl⟩ := hd
            simp only [specFullMatch, htd, List.all_cons, Bool.and_eq_true] at hm
            exact ⟨hm.1, (identTail_iff _).mpr (Or.inr ⟨body, rfl, hm.2⟩)⟩

/-- C2 counterexample: the code's `_validate_identifier` uses `re.match` with a
`$` anchor, so it accepts `"abc\n"`, a string that does not fully match
`^[A-Za-z_][A-Za-z0-9_]*$` as the entire string; the claimed equivalence with
a full match fails at this input. -/
theorem C2_counterexample :
    validate_identifier "abc\n" = true ∧ specFullMatch "abc\n" = false := by
  constructor <;> rfl

/-- C2 (amended): `_validate_identifier(name)` returns true iff `name` fully
matches `^[A-Za-z_][A-Za-z0-9_]*$` either as the entire string or after
removing a single trailing newline (Python `re.match` with `$` accepts the
latter); in particular it returns false for every string containing a space,
semicolon, single or double quote, and for every string starting with a
decimal digit. -/
theorem C2_amended_validate_identifier (s : String) :
    (validate_identifier s = true ↔
      specFullMatch s = true ∨ ∃ t, s = t ++ "\n" ∧ specFullMatch t = true) ∧
      (' ' ∈ s.data ∨ ';' ∈ s.data ∨ '\'' ∈ s.data ∨ '"' ∈ s.data →
        validate_identifier s = false) ∧
      (∀ d, s.data.head? = Option.some d →
        d ∈ ['0', '1', '2', '3', '4', '5', '6', '7', '8', '9'] →
        validate_identifier s = false) := by
  refine ⟨validate_identifier_iff s, ?_, ?_⟩
  · intro hbad
    cases hv : validate_identifier s
    · rfl
    · exfalso
      rcases hbad with hb | hb | hb | hb <;>
        rcases validate_identifier_chars hv _ hb with h' | h' | h' <;>
          exact absurd h' (by decide)
  · intro d hhead hdig
    cases hv : validate_identifier s
    · rfl
    · exfalso
      unfold validate_identifier at hv
      cases hs : s.data with
      | nil => rw [hs] at hhead; simp at hhead
      | cons c rest =>
        rw [hs] at hv hhead
        simp only [List.head?_cons, Option.some.injEq] at hhead
        subst hhead
        simp only [Bool.and_eq_true] at hv
        have := hv.1
        simp only [List.mem_cons, List.not_mem_nil, or_false] at hdig
        rcases hdig with rfl | rfl | rfl | rfl | rfl | rfl | rfl | rfl | rfl | rfl <;>
          exact absurd this (by decide)

theorem C2_witness :
    validate_identifier "a_1" = true ∧ validate_identifier "a b" = false ∧
      validate_identifier "9x" = false :=
  ⟨(C2_amended_validate_identifier "a_1").1.mpr (Or.inl (by decide)),
    (C2_amended_validate_identifier "a b").2.1 (Or.inl (by decide)),
    (C2_amended_validate_identifier "9x").2.2 '9' (by decide) (by decide)⟩

/-- C10: when `group_by` is empty, the `aggregates` argument of `_build_query`
is ignored entirely — the result (statement, parameters, or error) is
identical to the one built with no aggregates at all, so aggregate entries
are neither rendered nor validated and an invalid aggregate column or
unsupported function produces no error. -/
theorem C10_aggregates_ignored_without_group_by (te : String) (sc : List String)
    (fs : List FilterSpec) (ob : List OrderSpec) (lim : Option Int) (off : Int)
    (ag : List AggregateSpec) :
    build_query te sc fs [] ob lim off ag = build_query te sc fs [] ob lim off [] := rfl

/-- C1 counterexample: an aggregate whose column string fails the identifier
whitelist is accepted without error when `group_by` is empty — `_build_query`
returns a built statement, not an error, so the claim that every failing
aggregate column aborts with an error is false. -/
theorem C1_counterexample :
    validate_identifier "bad;col" = false ∧
      build_query "data" [] [] [] [] Option.none 0
        [⟨Option.some "bad;col", Option.some "count", Option.none⟩] =
        Except.ok ⟨"SELECT * FROM data", []⟩ :=
  ⟨rfl, rfl⟩

/-- C1 (amended): whenever `_build_query` returns a built query, every
selected column, group-by column, filter column and order-by column passed
`_validate_identifier`, and, when `group_by` is non-empty, so did every
aggregate column and every truthy aggregate alias.  Contrapositively, if any
of those identifiers fails the whitelist the function returns an error, and
hence no statement containing that string is ever constructed.  (The
correction: aggregate columns/aliases are only checked when `group_by` is
non-empty; with an empty `group_by` they are ignored, per C10.) -/
theorem C1_success_implies_identifiers_valid {te : String} {sc : List String}
    {fs : List FilterSpec} {gb : List String} {ob : List OrderSpec}
    {lim : Option Int} {off : Int} {ag : List AggregateSpec} {bq : BuiltQuery}
    (h : build_query te sc fs gb ob lim off ag = Except.ok bq) :
    (∀ c ∈ sc, validate_identifier c = true) ∧
      (∀ c ∈ gb, validate_identifier c = true) ∧
      (∀ f ∈ fs, validate_identifier (pyStr f.column) = true) ∧
      (∀ o ∈ ob, validate_identifier (pyStr o.column) = true) ∧
      (gb ≠ [] → ∀ a ∈ ag, validate_identifier (pyStr a.column) = true ∧
        (pyFalsy a.aliasName = false → validate_identifier (pyStr a.aliasName) = true)) := by
  obtain ⟨_, _, hv1, hv2, hv3, hv4, hv5⟩ := build_query_ok h
  refine ⟨hv1, hv2, ?_, ?_, ?_⟩
  · intro f hf
    have := hv3 f hf
    simp only [filterOk, Bool.and_eq_true] at this
    exact this.1.1.2
  · intro o ho
    have := hv4 o ho
    simp only [orderOk, Bool.and_eq_true] at this
    exact this.1.2
  · intro hgb a ha
    have := hv5 hgb a ha
    simp only [aggOk, Bool.and_eq_true, Bool.or_eq_true] at this
    refine ⟨this.1.1.2, ?_⟩
    intro hfal
    rcases this.2 with h' | h'
    · rw [hfal] at h'; cases h'
    · exact h'

/-- C1 witness: a concrete successful build, from which the amended theorem
yields the validity of all supplied identifiers. -/
theorem C1_witness :
    (∀ c ∈ ["age"], validate_identifier c = true) ∧
      (∀ c ∈ ([] : List String), validate_identifier c = true) ∧
      (∀ f ∈ ([] : List FilterSpec), validate_identifier (pyStr f.column) = true) ∧
      (∀ o ∈ ([] : List OrderSpec), validate_identifier (pyStr o.column) = true) ∧
      (([] : List String) ≠ [] → ∀ a ∈ ([] : List AggregateSpec),
        validate_identifier (pyStr a.column) = true ∧
        (pyFalsy a.aliasName = false → validate_identifier (pyStr a.aliasName) = true)) :=
  @C1_success_implies_identifiers_valid "data" ["age"] [] [] [] Option.none 0 []
    ⟨"SELECT age FROM data", []⟩ rfl

theorem countQ_selectParts {sc gb : List String} {ag : List AggregateSpec}
    (hsc : ∀ c ∈ sc, validate_identifier c = true)
    (hgb : ∀ c ∈ gb, validate_identifier c = true)
    (hag : gb ≠ [] → ∀ a ∈ ag, aggOk a = true) :
    countQ (pyJoin ", " (selectPartsOf sc gb ag)) = 0 := by
  rw [countQ_pyJoin _ _ (by rfl)]
  apply List.sum_eq_zero
  intro x hx
  rw [List.mem_map] at hx
  obtain ⟨p, hp, rfl⟩ := hx
  rw [selectPartsOf] at hp
  by_cases hg : gb = []
  · subst hg
    simp only [ne_eq, not_true_eq_false, if_false, reduceIte] at hp
    by_cases hs : sc = []
    · subst hs
      simp only [ne_eq, not_true_eq_false, reduceIte, List.mem_singleton] at hp
      subst hp
      rfl
    · rw [if_pos hs] at hp
      exact validate_identifier_countQ (hsc p hp)
  · rw [if_pos hg] at hp
    by_cases ha : ag.isEmpty
    · rw [ha] at hp
      simp only [Bool.not_true, Bool.false_eq_true, if_false] at hp
      exact validate_identifier_countQ (hgb p hp)
    · have ha' : (!ag.isEmpty) = true := by simpa using ha
      rw [ha', if_pos rfl] at hp
      rcases List.mem_append.mp hp with hp | hp
      · exact validate_identifier_countQ (hgb p hp)
      · rw [List.mem_map] at hp
        obtain ⟨a, ha2, rfl⟩ := hp
        exact countQ_renderAgg (hag hg a ha2)

theorem countQ_renderedQuery {te : String} {sc : List String} {fs : List FilterSpec}
    {gb : List String} {ob : List OrderSpec} {lim : Option Int} {off : Int}
    {ag : List AggregateSpec}
    (hsc : ∀ c ∈ sc, validate_identifier c = true)
    (hgb : ∀ c ∈ gb, validate_identifier c = true)
    (hf : ∀ f ∈ fs, filterOk f = true)
    (ho : ∀ o ∈ ob, orderOk o = true)
    (hag : gb ≠ [] → ∀ a ∈ ag, aggOk a = true) :
    countQ (renderedQuery te sc fs gb ob lim off ag) =
      countQ te + specPlaceholderCount fs lim off := by
  have hsel := countQ_selectParts hsc hgb hag
  have hW : countQ (whereClauseOf fs) = (fs.map (fun f => (filterValuesOf f).length)).sum := by
    rw [whereClauseOf]
    by_cases hfs : fs = []
    · subst hfs; simp [countQ]
    · rw [if_neg (by simpa [List.isEmpty_iff] using hfs), countQ_append,
        countQ_pyJoin _ _ (by rfl), List.map_map]
      have : countQ " WHERE " = 0 := rfl
      rw [this]
      have : List.map (countQ ∘ renderFilter) fs =
          List.map (fun f => (filterValuesOf f).length) fs :=
        List.map_congr_left (fun f hf' => countQ_renderFilter (hf f hf'))
      rw [this]
      omega
  have hG : countQ (groupClauseOf gb) = 0 := by
    rw [groupClauseOf]
    by_cases hg : gb = []
    · subst hg; simp [countQ]
    · rw [if_pos hg, countQ_append, countQ_pyJoin _ _ (by rfl)]
      have : countQ " GROUP BY " = 0 := rfl
      rw [this]
      have : (gb.map countQ).sum = 0 := by
        apply List.sum_eq_zero
        intro x hx
        rw [List.mem_map] at hx
        obtain ⟨c, hc, rfl⟩ := hx
        exact validate_identifier_countQ (hgb c hc)
      omega
  have hO : countQ (orderClauseOf ob) = 0 := by
    rw [orderClauseOf]
    by_cases hob : ob = []
    · subst hob; simp [countQ]
    · rw [if_neg (by simpa [List.isEmpty_iff] using hob), countQ_append,
        countQ_pyJoin _ _ (by rfl), List.map_map]
      have h1 : countQ " ORDER BY " = 0 := rfl
      rw [h1]
      have : (List.map (countQ ∘ renderOrder) ob).sum = 0 := by
        apply List.sum_eq_zero
        intro x hx
        rw [List.mem_map] at hx
        obtain ⟨o, ho2, rfl⟩ := hx
        exact countQ_renderOrder (ho o ho2)
      omega
  have hL : countQ (limitClauseOf lim) = (if lim.isSome then 1 else 0) := by
    cases lim <;> rfl
  have hF : countQ (offsetClauseOf off) = (if off ≠ 0 then 1 else 0) := by
    rw [offsetClauseOf]
    by_cases hoff : off = 0
    · simp [hoff, countQ]
    · simp only [hoff, ne_eq, not_false_eq_true, if_true]
      rfl
  have h1 : countQ "SELECT " = 0 := rfl
  have h2 : countQ " FROM " = 0 := rfl
  rw [renderedQuery, countQ_append, countQ_append, countQ_append, countQ_append,
    countQ_append, countQ_append, countQ_append, countQ_append,
    h1, h2, hsel, hW, hG, hO, hL, hF, specPlaceholderCount]
  generalize (if lim.isSome then 1 else 0) = a
  generalize (if off ≠ 0 then 1 else 0) = b
  omega

/-- C3 counterexample: for the table expression the tool actually uses,
`read_parquet(?)`, the built statement contains one more placeholder than the
claim's formula — already for the empty query spec the statement has one
placeholder while the formula predicts zero (and the returned parameter list
is empty): the placeholder inside `table_expr` is not accounted for. -/
theorem C3_counterexample :
    build_query "read_parquet(?)" [] [] [] [] Option.none 0 [] =
        Except.ok ⟨"SELECT * FROM read_parquet(?)", []⟩ ∧
      countQ "SELECT * FROM read_parquet(?)" = 1 ∧
      specPlaceholderCount [] Option.none 0 = 0 ∧
      countQ "SELECT * FROM read_parquet(?)" ≠ specPlaceholderCount [] Option.none 0 :=
  ⟨rfl, by decide, by decide, by decide⟩

/-- C3 (amended): for every successful `_build_query`, the number of `?`
placeholders in the statement equals the placeholders already present in
`table_expr` plus the spec's formula (one per non-`in` filter, the element
count of each `in` filter, one if a limit is given, one if the offset is
nonzero); the returned parameter list has exactly the formula's length; and
the parameters are the filter values in input order, then the limit, then the
offset, matching the left-to-right placeholder order of the clauses the
builder appends. -/
theorem C3_amended_placeholder_alignment {te : String} {sc : List String}
    {fs : List FilterSpec} {gb : List String} {ob : List OrderSpec}
    {lim : Option Int} {off : Int} {ag : List AggregateSpec} {bq : BuiltQuery}
    (h : build_query te sc fs gb ob lim off ag = Except.ok bq) :
    countQ bq.query = countQ te + specPlaceholderCount fs lim off ∧
      bq.params.length = specPlaceholderCount fs lim off ∧
      bq.params = (fs.map filterValuesOf).flatten ++ limitParams lim ++ offsetParams off := by
  obtain ⟨hq, hp, hv1, hv2, hv3, hv4, hv5⟩ := build_query_ok h
  refine ⟨?_, ?_, by rw [hp, paramsOf]⟩
  · rw [hq]
    exact countQ_renderedQuery hv1 hv2 hv3 hv4 hv5
  · rw [hp, paramsOf, List.length_append, List.length_append, List.length_flatten,
      List.map_map, specPlaceholderCount]
    have hlen : (List.map (List.length ∘ filterValuesOf) fs).sum =
        (List.map (fun f => (filterValuesOf f).length) fs).sum := rfl
    have hL : (limitParams lim).length = (if lim.isSome then 1 else 0) := by
      cases lim <;> rfl
    have hF : (offsetParams off).length = (if off ≠ 0 then 1 else 0) := by
      rw [offsetParams]
      by_cases hoff : off = 0 <;> simp [hoff]
    rw [hlen, hL, hF]

/-- C3 witness: the amended theorem applied to a concrete successful build
with one `in` filter of two elements, a scalar filter, a limit and an offset. -/
theorem C3_witness :
    countQ "SELECT * FROM t WHERE a IN (?, ?) AND b = ? LIMIT ? OFFSET ?" =
        countQ "t" + specPlaceholderCount
          [⟨Option.some "a", Option.some "in", Value.list [Value.int 1, Value.int 2]⟩,
            ⟨Option.some "b", Option.some "=", Value.int 5⟩] (Option.some 7) 3 ∧
      ([Value.int 1, Value.int 2, Value.int 5, Value.int 7, Value.int 3] : List Value).length =
        specPlaceholderCount
          [⟨Option.some "a", Option.some "in", Value.list [Value.int 1, Value.int 2]⟩,
            ⟨Option.some "b", Option.some "=", Value.int 5⟩] (Option.some 7) 3 ∧
      ([Value.int 1, Value.int 2, Value.int 5, Value.int 7, Value.int 3] : List Value) =
        (([⟨Option.some "a", Option.some "in", Value.list [Value.int 1, Value.int 2]⟩,
            ⟨Option.some "b", Option.some "=", Value.int 5⟩] : List FilterSpec).map
              filterValuesOf).flatten ++ limitParams (Option.some 7) ++ offsetParams 3 :=
  @C3_amended_placeholder_alignment "t" []
    [⟨Option.some "a", Option.some "in", Value.list [Value.int 1, Value.int 2]⟩,
      ⟨Option.some "b", Option.some "=", Value.int 5⟩] [] [] (Option.some 7) 3 []
    ⟨"SELECT * FROM t WHERE a IN (?, ?) AND b = ? LIMIT ? OFFSET ?",
      [Value.int 1, Value.int 2, Value.int 5, Value.int 7, Value.int 3]⟩ rfl

/-- C4: for every successful `_build_query`, the statement's projection is:
when `group_by` is non-empty, the group-by columns followed by one rendered
aggregate expression (`func(column)`, optionally `AS alias`) per aggregate
entry — which is exactly the group-by columns when no aggregates are given;
else the selected columns verbatim in given order when supplied; else the
wildcard `*`. -/
theorem C4_projection {te : String} {sc : List String} {fs : List FilterSpec}
    {gb : List String} {ob : List OrderSpec} {lim : Option Int} {off : Int}
    {ag : List AggregateSpec} {bq : BuiltQuery}
    (h : build_query te sc fs gb ob lim off ag = Except.ok bq) :
    ∃ tail, bq.query =
      "SELECT " ++ pyJoin ", "
        (if gb ≠ [] then gb ++ ag.map renderAgg
          else if sc ≠ [] then sc else ["*"]) ++ " FROM " ++ te ++ tail := by
  obtain ⟨hq, _⟩ := build_query_ok h
  refine ⟨whereClauseOf fs ++ groupClauseOf gb ++ orderClauseOf ob ++
    limitClauseOf lim ++ offsetClauseOf off, ?_⟩
  rw [hq, renderedQuery]
  have hsel : selectPartsOf sc gb ag =
      (if gb ≠ [] then gb ++ ag.map renderAgg
        else if sc ≠ [] then sc else ["*"]) := by
    rw [selectPartsOf]
    by_cases hg : gb = []
    · simp [hg]
    · by_cases ha : ag.isEmpty
      · rw [List.isEmpty_iff] at ha
        simp [hg, ha]
      · have ha' : (!ag.isEmpty) = true := by simpa using ha
        simp [hg, ha']
  rw [hsel]
  simp [String.append_assoc]

/-- C4 witness: the projection shape at a concrete grouped, aggregated build. -/
theorem C4_witness :
    ∃ tail, "SELECT age, count(id) AS count_id FROM t GROUP BY age" =
      "SELECT " ++ pyJoin ", "
        (if (["age"] : List String) ≠ [] then
          ["age"] ++ ([⟨Option.some "id", Option.some "count", Option.some "count_id"⟩] :
            List AggregateSpec).map renderAgg
          else if ([] : List String) ≠ [] then [] else ["*"]) ++ " FROM " ++ "t" ++ tail :=
  @C4_projection "t" [] [] ["age"] [] Option.none 0
    [⟨Option.some "id", Option.some "count", Option.some "count_id"⟩]
    ⟨"SELECT age, count(id) AS count_id FROM t GROUP BY age", []⟩ rfl

/-- C5: for a filter whose (lower-cased) operator is `in`, the builder errors
with the `InvalidFilterValue` message when the value is not a list or is the
empty list, and otherwise renders `column IN (?, ?, …)` with exactly one
placeholder per element, prepending the elements to the parameter list in
order; every other allowed operator renders `column OP ?` with exactly one
placeholder and contributes exactly its one value. -/
theorem C5_in_filter (col op : String) (v : Value) (rest : List FilterSpec)
    (hcol : validate_identifier col = true)
    (hop : ALLOWED_OPERATORS.contains (pyLower op) = true) :
    (pyLower op = "in" →
      (((∀ vs, v ≠ Value.list vs) ∨ v = Value.list []) →
        buildWhere (⟨Option.some col, Option.some op, v⟩ :: rest) =
          Except.error "IN operator requires a non-empty list value") ∧
      (∀ u us, v = Value.list (u :: us) →
        buildWhere (⟨Option.some col, Option.some op, v⟩ :: rest) =
          (buildWhere rest).map (fun wp =>
            ((col ++ " IN (" ++ placeholderList (u :: us).length ++ ")") :: wp.1,
              (u :: us) ++ wp.2)) ∧
          countQ (col ++ " IN (" ++ placeholderList (u :: us).length ++ ")") =
            (u :: us).length)) ∧
    (pyLower op ≠ "in" →
      buildWhere (⟨Option.some col, Option.some op, v⟩ :: rest) =
        (buildWhere rest).map (fun wp =>
          ((col ++ " " ++ pyLower op ++ " ?") :: wp.1, v :: wp.2)) ∧
      countQ (col ++ " " ++ pyLower op ++ " ?") = 1) := by
  have c1 : (pyFalsy (Option.some col) || !validate_identifier col) = false := by
    simp [pyFalsy, hcol, validate_identifier_ne_empty hcol]
  have hop2 : (!ALLOWED_OPERATORS.contains "in") = false := rfl
  have hq0 : countQ col = 0 := validate_identifier_countQ hcol
  constructor
  · intro hin
    constructor
    · intro hbad
      simp only [buildWhere, pyStr, Option.getD, hin, c1, Bool.false_eq_true, if_false,
        hop2, beq_self_eq_true, if_true]
      rcases hbad with hbad | rfl
      · cases v with
        | list vs => exact absurd rfl (hbad vs)
        | none => rfl
        | int i => rfl
        | str s => rfl
      · rfl
    · intro u us hveq
      subst hveq
      constructor
      · simp only [buildWhere, pyStr, Option.getD, hin, c1, Bool.false_eq_true, if_false,
          hop2, beq_self_eq_true, if_true]
      · have h2 : countQ " IN (" = 0 := rfl
        have h3 : countQ ")" = 0 := rfl
        rw [countQ_append, countQ_append, countQ_append, hq0, h2, h3,
          countQ_placeholderList]
        omega
  · intro hin
    have hin' : (pyLower op == "in") = false := by
      simpa using hin
    constructor
    · simp only [buildWhere, pyStr, Option.getD, c1, Bool.false_eq_true, if_false,
        hop, Bool.not_true, hin', if_false]
    · have h2 : countQ " " = 0 := rfl
      have h3 : countQ " ?" = 1 := rfl
      have h4 : countQ (pyLower op) = 0 := allowed_operator_countQ hop
      rw [countQ_append, countQ_append, countQ_append, hq0, h2, h3, h4]

/-- C5 witness: the theorem applied at a concrete valid column and the `in`
operator with a two-element list value. -/
theorem C5_witness :
    (pyLower "in" = "in" →
      (((∀ vs, Value.list [Value.int 1, Value.int 2] ≠ Value.list vs) ∨
          Value.list [Value.int 1, Value.int 2] = Value.list []) →
        buildWhere (⟨Option.some "a", Option.some "in",
            Value.list [Value.int 1, Value.int 2]⟩ :: []) =
          Except.error "IN operator requires a non-empty list value") ∧
      (∀ u us, Value.list [Value.int 1, Value.int 2] = Value.list (u :: us) →
        buildWhere (⟨Option.some "a", Option.some "in",
            Value.list [Value.int 1, Value.int 2]⟩ :: []) =
          (buildWhere []).map (fun wp =>
            (("a" ++ " IN (" ++ placeholderList (u :: us).length ++ ")") :: wp.1,
              (u :: us) ++ wp.2)) ∧
          countQ ("a" ++ " IN (" ++ placeholderList (u :: us).length ++ ")") =
            (u :: us).length)) ∧
    (pyLower "in" ≠ "in" →
      buildWhere (⟨Option.some "a", Option.some "in",
          Value.list [Value.int 1, Value.int 2]⟩ :: []) =
        (buildWhere []).map (fun wp =>
          (("a" ++ " " ++ pyLower "in" ++ " ?") :: wp.1,
            Value.list [Value.int 1, Value.int 2] :: wp.2)) ∧
      countQ ("a" ++ " " ++ pyLower "in" ++ " ?") = 1) :=
  C5_in_filter "a" "in" (Value.list [Value.int 1, Value.int 2]) [] (by decide) (by decide)

/-- C6: every successful `_build_query` result consists of the core statement
(through `ORDER BY`) followed by a `LIMIT ?` clause exactly when a limit is
given and then an `OFFSET ?` clause exactly when the offset is nonzero, with
the limit and then the offset appended to the parameter list in that order;
an offset of 0 is never rendered, so the result is identical to the one with
no offset clause at all. -/
theorem C6_limit_offset {te : String} {sc : List String} {fs : List FilterSpec}
    {gb : List String} {ob : List OrderSpec} {lim : Option Int} {off : Int}
    {ag : List AggregateSpec} {bq : BuiltQuery}
    (h : build_query te sc fs gb ob lim off ag = Except.ok bq) :
    ∃ q0 ps0, buildQueryCore te sc fs gb ob ag = Except.ok (q0, ps0) ∧
      bq.query = (if lim.isSome then q0 ++ " LIMIT ?" else q0) ++
        (if off ≠ 0 then " OFFSET ?" else "") ∧
      bq.params = ps0 ++ limitParams lim ++ offsetParams off := by
  unfold build_query at h
  cases hc : buildQueryCore te sc fs gb ob ag with
  | error e => rw [hc] at h; simp [Bind.bind, Except.bind] at h
  | ok core =>
    rw [hc] at h
    simp only [Bind.bind, Except.bind, pure, Except.pure] at h
    injection h with h
    subst h
    refine ⟨core.1, core.2, rfl, ?_, ?_⟩
    · show (if off ≠ 0 then (if lim.isSome then core.1 ++ " LIMIT ?" else core.1) ++ " OFFSET ?"
        else if lim.isSome then core.1 ++ " LIMIT ?" else core.1) = _
      by_cases hoff : off = 0 <;> cases lim <;>
        simp [hoff, String.append_empty]
    · show (if off ≠ 0 then
        (match lim with
          | Option.some l => core.2 ++ [Value.int l]
          | Option.none => core.2) ++ [Value.int off]
        else match lim with
          | Option.some l => core.2 ++ [Value.int l]
          | Option.none => core.2) = _
      by_cases hoff : off = 0 <;> cases lim <;>
        simp [hoff, limitParams, offsetParams]

/-- C6 witness: a concrete build with both a limit and a nonzero offset. -/
theorem C6_witness :
    ∃ q0 ps0, buildQueryCore "t" [] [] [] [] [] = Except.ok (q0, ps0) ∧
      ("SELECT * FROM t LIMIT ? OFFSET ?" : String) =
        (if (Option.some (5 : Int)).isSome then q0 ++ " LIMIT ?" else q0) ++
          (if (7 : Int) ≠ 0 then " OFFSET ?" else "") ∧
      ([Value.int 5, Value.int 7] : List Value) =
        ps0 ++ limitParams (Option.some 5) ++ offsetParams 7 :=
  @C6_limit_offset "t" [] [] [] [] (Option.some 5) 7 []
    ⟨"SELECT * FROM t LIMIT ? OFFSET ?", [Value.int 5, Value.int 7]⟩ rfl

/-- C7: `_build_query` always returns exactly one of a built query or a
structured error — never both, never neither — and every error value is one
of the recognized messages naming the offending column/alias string from the
input, the offending lower-cased operator/aggregate/direction from the input,
or the fixed `IN`-value message; on success no error is present. -/
theorem C7_result_exclusive (te : String) (sc : List String) (fs : List FilterSpec)
    (gb : List String) (ob : List OrderSpec) (lim : Option Int) (off : Int)
    (ag : List AggregateSpec) :
    (∃ bq, build_query te sc fs gb ob lim off ag = Except.ok bq ∧
      ∀ e, build_query te sc fs gb ob lim off ag ≠ Except.error e) ∨
    (∃ e, build_query te sc fs gb ob lim off ag = Except.error e ∧
      BuildQueryError sc gb fs ob ag e ∧
      ∀ bq, build_query te sc fs gb ob lim off ag ≠ Except.ok bq) := by
  cases hb : build_query te sc fs gb ob lim off ag with
  | ok bq => exact Or.inl ⟨bq, rfl, by simp⟩
  | error e => exact Or.inr ⟨e, rfl, build_query_error hb, by simp⟩

/-- C8: for every path not ending in a case-insensitive `.parquet` extension,
each of `parquet_read`, `parquet_write` and `parquet_info` returns an error
with an empty effect trace — no path resolution, no filesystem access, no
directory creation and no engine invocation happens. -/
theorem C8_extension_guard (env : Env) (path : String)
    (lim : Option Int) (off : Int) (sc : List String) (fs : List FilterSpec)
    (gb : List String) (ob : List OrderSpec) (ag : List AggregateSpec)
    (columns : List String) (rows : List (List (String × Value)))
    (hext : pyEndsWith (pyLower path) ".parquet" = false) :
    ((∃ e, (parquet_read env path lim off sc fs gb ob ag).1 = Except.error e) ∧
      (parquet_read env path lim off sc fs gb ob ag).2 = []) ∧
    ((parquet_write env path columns rows).1 =
        Except.error "File must have .parquet extension" ∧
      (parquet_write env path columns rows).2 = []) ∧
    ((parquet_info env path).1 = Except.error "File must have .parquet extension" ∧
      (parquet_info env path).2 = []) := by
  refine ⟨?_, ?_, ?_⟩
  · by_cases h1 : off < 0
    · exact ⟨⟨"offset and limit must be non-negative", by simp [parquet_read, h1]⟩,
        by simp [parquet_read, h1]⟩
    · by_cases h2 : pyNegLimit lim = true
      · exact ⟨⟨"offset and limit must be non-negative", by simp [parquet_read, h1, h2]⟩,
          by simp [parquet_read, h1, h2]⟩
      · exact ⟨⟨"File must have .parquet extension",
          by simp [parquet_read, h1, h2, hext]⟩,
          by simp [parquet_read, h1, h2, hext]⟩
  · exact ⟨by simp [parquet_write, hext], by simp [parquet_write, hext]⟩
  · exact ⟨by simp [parquet_info, hext], by simp [parquet_info, hext]⟩

/-- C8 witness: the guard at the concrete path `data.txt`. -/
theorem C8_witness :
    ((∃ e, (parquet_read
        ⟨true, fun p => Except.ok p, fun _ => true, fun _ _ => Except.error "engine",
          fun _ => 0⟩
        "data.txt" Option.none 0 [] [] [] [] []).1 = Except.error e) ∧
      (parquet_read
        ⟨true, fun p => Except.ok p, fun _ => true, fun _ _ => Except.error "engine",
          fun _ => 0⟩
        "data.txt" Option.none 0 [] [] [] [] []).2 = []) ∧
    ((parquet_write
        ⟨true, fun p => Except.ok p, fun _ => true, fun _ _ => Except.error "engine",
          fun _ => 0⟩
        "data.txt" ["a"] []).1 = Except.error "File must have .parquet extension" ∧
      (parquet_write
        ⟨true, fun p => Except.ok p, fun _ => true, fun _ _ => Except.error "engine",
          fun _ => 0⟩
        "data.txt" ["a"] []).2 = []) ∧
    ((parquet_info
        ⟨true, fun p => Except.ok p, fun _ => true, fun _ _ => Except.error "engine",
          fun _ => 0⟩
        "data.txt").1 = Except.error "File must have .parquet extension" ∧
      (parquet_info
        ⟨true, fun p => Except.ok p, fun _ => true, fun _ _ => Except.error "engine",
          fun _ => 0⟩
        "data.txt").2 = []) :=
  C8_extension_guard
    ⟨true, fun p => Except.ok p, fun _ => true, fun _ _ => Except.error "engine",
      fun _ => 0⟩
    "data.txt" Option.none 0 [] [] [] [] [] ["a"] [] (by decide)

/-- C9: when the extension check passes, duckdb is importable and the
resolved path does not exist, `parquet_read` (under its non-negativity
guards) and `parquet_info` return the distinct `File not found` error naming
the requested path, and no engine invocation appears in the effect trace. -/
theorem C9_file_not_found (env : Env) (path rp : String)
    (lim : Option Int) (off : Int) (sc : List String) (fs : List FilterSpec)
    (gb : List String) (ob : List OrderSpec) (ag : List AggregateSpec)
    (hext : pyEndsWith (pyLower path) ".parquet" = true)
    (hdb : env.duckdbAvailable = true)
    (hres : env.resolve path = Except.ok rp)
    (hex : env.fileExists rp = false)
    (hoff : ¬ off < 0) (hlim : pyNegLimit lim = false) :
    ((parquet_read env path lim off sc fs gb ob ag).1 =
        Except.error ("File not found: " ++ path) ∧
      ∀ ef ∈ (parquet_read env path lim off sc fs gb ob ag).2,
        ef.isEngineCall = false) ∧
    ((parquet_info env path).1 = Except.error ("File not found: " ++ path) ∧
      ∀ ef ∈ (parquet_info env path).2, ef.isEngineCall = false) := by
  have hread : parquet_read env path lim off sc fs gb ob ag =
      (Except.error ("File not found: " ++ path),
        [Effect.resolvePath path, Effect.checkExists rp]) := by
    rw [parquet_read]
    rw [if_neg hoff, hlim, hext, hdb]
    simp only [Bool.not_true, Bool.false_eq_true, if_false, Bool.not_false, if_true]
    rw [hres]
    simp [hex]
  have hinfo : parquet_info env path =
      (Except.error ("File not found: " ++ path),
        [Effect.resolvePath path, Effect.checkExists rp]) := by
    rw [parquet_info]
    rw [hext, hdb]
    simp only [Bool.not_true, Bool.false_eq_true, if_false, Bool.not_false, if_true]
    rw [hres]
    simp [hex]
  refine ⟨⟨by rw [hread], ?_⟩, ⟨by rw [hinfo], ?_⟩⟩
  · rw [hread]
    intro ef hef
    rcases List.mem_cons.mp hef with rfl | hef
    · rfl
    · rcases List.mem_cons.mp hef with rfl | hef
      · rfl
      · simp at hef
  · rw [hinfo]
    intro ef hef
    rcases List.mem_cons.mp hef with rfl | hef
    · rfl
    · rcases List.mem_cons.mp hef with rfl | hef
      · rfl
      · simp at hef

/-- C9 witness: a concrete environment in which `missing.parquet` resolves to
a non-existent path. -/
theorem C9_witness :
    ((parquet_read
        ⟨true, fun p => Except.ok ("/ws/" ++ p), fun _ => false,
          fun _ _ => Except.error "engine", fun _ => 0⟩
        "missing.parquet" Option.none 0 [] [] [] [] []).1 =
        Except.error ("File not found: " ++ "missing.parquet") ∧
      ∀ ef ∈ (parquet_read
        ⟨true, fun p => Except.ok ("/ws/" ++ p), fun _ => false,
          fun _ _ => Except.error "engine", fun _ => 0⟩
        "missing.parquet" Option.none 0 [] [] [] [] []).2,
        ef.isEngineCall = false) ∧
    ((parquet_info
        ⟨true, fun p => Except.ok ("/ws/" ++ p), fun _ => false,
          fun _ _ => Except.error "engine", fun _ => 0⟩
        "missing.parquet").1 = Except.error ("File not found: " ++ "missing.parquet") ∧
      ∀ ef ∈ (parquet_info
        ⟨true, fun p => Except.ok ("/ws/" ++ p), fun _ => false,
          fun _ _ => Except.error "engine", fun _ => 0⟩
        "missing.parquet").2, ef.isEngineCall = false) :=
  C9_file_not_found
    ⟨true, fun p => Except.ok ("/ws/" ++ p), fun _ => false,
      fun _ _ => Except.error "engine", fun _ => 0⟩
    "missing.parquet" ("/ws/" ++ "missing.parquet") Option.none 0 [] [] [] [] []
    (by decide) rfl rfl rfl (by decide) rfl
